import Mathlib

/-!
The command `mc events list`: a shallow embedding of `src/mc/events-list.go`

The Go file defines the command `mc events list ALIAS/BUCKET [ARN]`:

* `checkEventsListSyntax` validates the number of positional arguments,
* `eventsListMessage` is the record printed for one notification
  configuration, with its two renderings `String()` and `JSON()`,
* `mainEventsList` resolves the target, asks the S3 client for the
  notification configurations and prints one message per configuration.

Go strings are modelled by Lean strings, a Go `[]string` by
`Option (List String)` (`none` is the nil slice), a `*probe.Error` by
`Option ProbeError` (`none` is the nil pointer).  Side effects (calls to
collaborators, printed messages, process exit) are recorded in an explicit
trace of events together with the way the run ended.
-/

namespace Mc

/-! Data model -/

/-- The elements a Go `range` loop visits on a `[]string`: none for the nil
slice, the elements in order otherwise. -/
def sliceElems : Option (List String) → List String
  | none => []
  | some xs => xs

/-- The record `eventsListMessage` of the source (lines 62-69), fields in
declaration order. `Events` is a Go slice: `none` is nil. -/
structure eventsListMessage where
  Status : String
  ID : String
  Events : Option (List String)
  Prefix : String
  Suffix : String
  Arn : String
deriving DecidableEq, Repr

/-! Text rendering: `eventsListMessage.String` -/

/-- The body of the loop `for i, event := range u.Events` of `String()`
(lines 80-85), run on the remaining events `rest` starting at index `i`, with
`n = len(u.Events)`. The comparison `i != len(u.Events)-1` is on Go `int`s.
`colorize` is `console.Colorize` under the current theme. -/
def eventsLoop (colorize : String → String → String) (n : Nat) :
    Nat → List String → String → String
  | _, [], msg => msg
  | i, event :: rest, msg =>
    let msg1 := msg ++ colorize "Events" event
    let msg2 := if (i : Int) ≠ (n : Int) - 1 then msg1 ++ "," else msg1
    eventsLoop colorize n (i + 1) rest msg2

/-- The text line as the specification words it: id, tab, arn, tab, the events
joined by commas, then the prefix tag and the suffix tag when non-empty. -/
def specLine (u : eventsListMessage) : String :=
  u.ID ++ "\t" ++ u.Arn ++ "\t" ++ ",".intercalate (sliceElems u.Events)
    ++ (if u.Prefix ≠ "" then "\tprefix:" ++ u.Prefix else "")
    ++ (if u.Suffix ≠ "" then "\tsuffix:" ++ u.Suffix else "")

/-! Errors and process termination -/

/-- A non-nil `*probe.Error`: the wrapped cause and the number of trace points
recorded on it. The type lives in `github.com/minio/minio/pkg/probe`. -/
structure ProbeError where
  cause : String
  callTrace : Nat
deriving DecidableEq, Repr

/-- The function `probe.NewError`: nil for a nil cause, otherwise an error
wrapping the cause with one trace point. -/
def probe.NewError : Option String → Option ProbeError
  | none => none
  | some e => some ⟨e, 1⟩

/-- The method `(*probe.Error).Trace`: records one more trace point and hands
back the same error. -/
def ProbeError.Trace (e : ProbeError) : ProbeError :=
  { e with callTrace := e.callTrace + 1 }

/-- Modelled from the spec: `errDummy` is defined outside `events-list.go`.
The error raised at line 115 for an unsupported target is a proper (non-nil)
error; it carries no cause text of its own. -/
def errDummy : ProbeError := ⟨"", 1⟩

/-- The ways a run of the command stops before returning from
`mainEventsList`. -/
inductive Exit where
  /-- The process exits with the given code (`cli.ShowCommandHelpAndExit`). -/
  | exit (code : Nat)
  /-- The fatal-error channel: the error and the message context given to
  `fatalIf`. -/
  | fatal (err : ProbeError) (msg : String)
  /-- A Go run-time panic (index out of range). -/
  | panic (reason : String)
deriving DecidableEq, Repr

/-- Modelled from the spec: `fatalIf` is defined outside `events-list.go`.
Every error is terminal: with a nil error the call returns and the caller goes
on, with a non-nil error the run stops on the fatal channel carrying that
error and the message context. -/
def fatalIf (err : Option ProbeError) (msg : String) : Except Exit Unit :=
  match err with
  | none => .ok ()
  | some e => .error (.fatal e msg)

/-! Structured rendering: `eventsListMessage.JSON` -/

/-- The Go values handed to `json.Marshal`, as far as the encoder tells them
apart: strings, nil and non-nil slices, structs with their fields in
declaration order under their JSON keys, and values of a kind the encoder
has no encoding for (channels, functions, complex numbers). -/
inductive GoValue where
  | string (s : String)
  | nilSlice
  | slice (elems : List GoValue)
  | struct (fields : List (String × GoValue))
  | unsupported (typeName : String)

mutual
/-- The encoder of `encoding/json` on a value: a string becomes a JSON string
literal (through `quote`), a nil slice `null`, a non-nil slice a JSON array, a
struct a JSON object with its fields in declaration order; an unsupported
value is an error. -/
def jsonEncode (quote : String → String) : GoValue → Except String String
  | .string s => .ok (quote s)
  | .nilSlice => .ok "null"
  | .slice elems =>
    match jsonEncodeElems quote true elems with
    | .ok body => .ok ("[" ++ body ++ "]")
    | .error e => .error e
  | .struct fields =>
    match jsonEncodeFields quote true fields with
    | .ok body => .ok ("\x7b" ++ body ++ "\x7d")
    | .error e => .error e
  | .unsupported typeName => .error ("json: unsupported type: " ++ typeName)
/-- The elements of an array, a comma before each one but the first. -/
def jsonEncodeElems (quote : String → String) : Bool → List GoValue → Except String String
  | _, [] => .ok ""
  | first, v :: rest =>
    match jsonEncode quote v with
    | .error e => .error e
    | .ok a =>
      match jsonEncodeElems quote false rest with
      | .error e => .error e
      | .ok b => .ok ((if first then "" else ",") ++ a ++ b)
/-- The fields of an object, each as its quoted key, a colon and its value, a
comma before each one but the first. -/
def jsonEncodeFields (quote : String → String) :
    Bool → List (String × GoValue) → Except String String
  | _, [] => .ok ""
  | first, (key, v) :: rest =>
    match jsonEncode quote v with
    | .error e => .error e
    | .ok a =>
      match jsonEncodeFields quote false rest with
      | .error e => .error e
      | .ok b => .ok ((if first then "" else ",") ++ "\"" ++ key ++ "\":" ++ a ++ b)
end

/-- The function `json.Marshal`. -/
def jsonMarshal (quote : String → String) (v : GoValue) : Except String String :=
  jsonEncode quote v

/-- A Go `[]string` as a value for the encoder. -/
def stringSliceValue : Option (List String) → GoValue
  | none => .nilSlice
  | some xs => .slice (xs.map GoValue.string)

/-- The record as the encoder sees it: the struct declaration of lines 62-69
with its `json:"..."` tags, fields in declaration order. -/
def eventsListMessage.toGoValue (u : eventsListMessage) : GoValue :=
  .struct [("status", .string u.Status), ("id", .string u.ID),
    ("events", stringSliceValue u.Events), ("prefix", .string u.Prefix),
    ("suffix", .string u.Suffix), ("arn", .string u.Arn)]

/-! Collaborators -/

/-- One notification configuration as returned by the client; the fields are
those `mainEventsList` reads (lines 122-126). -/
structure notificationConfig where
  ID : String
  Arn : String
  Events : Option (List String)
  Prefix : String
  Suffix : String
deriving DecidableEq, Repr

/-- The S3 client: its method `ListNotificationConfigs` returns the
configurations and a possibly nil error. -/
structure s3Client where
  ListNotificationConfigs : String → List notificationConfig × Option ProbeError

/-- The dynamic value of the `Client` interface returned by `newClient`: nil,
an `*s3Client`, or a client of another concrete type. -/
inductive Client where
  | nil
  | s3 (c : s3Client)
  | other

/-- The surroundings of the command: the state of the `console` package as
the function `console.Colorize` (tag, text), the global output mode
`globalJSON`, the string-literal encoder of `encoding/json`, and the target
resolver `newClient`, returning a client and a possibly nil error. -/
structure World where
  colorize : String → String → String
  globalJSON : Bool
  jsonString : String → String
  newClient : String → Client × Option ProbeError

/-- The method `eventsListMessage.JSON` (lines 71-76). -/
def eventsListMessage.JSON (w : World) (u : eventsListMessage) : Except Exit String :=
  let u1 := { u with Status := "success" }
  match jsonMarshal w.jsonString u1.toGoValue with
  | .ok bytes =>
    match fatalIf (probe.NewError none) "Unable to marshal into JSON." with
    | .ok _ => .ok bytes
    | .error x => .error x
  | .error e =>
    match fatalIf (probe.NewError (some e)) "Unable to marshal into JSON." with
    | .ok _ => .ok ""
    | .error x => .error x

/-- The method `eventsListMessage.String` (lines 78-93). -/
def eventsListMessage.String (colorize : String → String → String)
    (u : eventsListMessage) : String :=
  let msg0 := colorize "Events" (u.ID ++ "\t" ++ u.Arn ++ "\t")
  let msg1 := eventsLoop colorize (sliceElems u.Events).length 0 (sliceElems u.Events) msg0
  let msg2 := if u.Prefix ≠ "" then msg1 ++ "\tprefix:" ++ u.Prefix else msg1
  let msg3 := if u.Suffix ≠ "" then msg2 ++ "\tsuffix:" ++ u.Suffix else msg2
  msg3

/-- The JSON text of a slice of strings as the specification words it: always
a JSON list of the events in order. -/
def specEventsList (quote : String → String) (events : Option (List String)) : String :=
  "[" ++ ",".intercalate ((sliceElems events).map quote) ++ "]"

/-- The JSON text of a slice of strings as the encoder writes it: `null` for
the nil slice, a JSON list of the events in order otherwise. -/
def eventsText (quote : String → String) : Option (List String) → String
  | none => "null"
  | some xs => "[" ++ ",".intercalate (xs.map quote) ++ "]"

/-- The JSON object of a record around a given text for the events: the keys
status, id, events, prefix, suffix, arn in that order, status the literal
`success`. -/
def objectText (quote : String → String) (u : eventsListMessage) (events : String) : String :=
  "\x7b\"status\":" ++ quote "success" ++ ",\"id\":" ++ quote u.ID
    ++ ",\"events\":" ++ events
    ++ ",\"prefix\":" ++ quote u.Prefix ++ ",\"suffix\":" ++ quote u.Suffix
    ++ ",\"arn\":" ++ quote u.Arn ++ "\x7d"

/-- The string literal the encoder writes for a string none of whose
characters needs an escape: the string between double quotes. -/
def quotePlain (s : String) : String := "\"" ++ s ++ "\""

/-! The command -/

/-- The observable steps of a run. -/
inductive Event where
  | setColor (tag : String)
  | setGlobalsFromContext
  | showCommandHelp (command : String)
  | newClient (path : String)
  | listNotificationConfigs (arn : String)
  | printMsg (msg : eventsListMessage) (text : String)
deriving DecidableEq, Repr

/-- A run: the events so far and either a value or the way the run stopped.
-/
structure Run (α : Type) where
  trace : List Event
  result : Except Exit α

/-- A run that does nothing and yields `a`. -/
def Run.pure {α : Type} (a : α) : Run α := ⟨[], .ok a⟩

/-- Sequencing: the second run happens only when the first did not stop. -/
def Run.bind {α β : Type} (r : Run α) (f : α → Run β) : Run β :=
  match r.result with
  | .error x => ⟨r.trace, .error x⟩
  | .ok a => ⟨r.trace ++ (f a).trace, (f a).result⟩

instance : Monad Run where
  pure := Run.pure
  bind := Run.bind

/-- Record one event. -/
def emit (e : Event) : Run Unit := ⟨[e], .ok ()⟩

/-- Lift a step that may stop the run. -/
def liftExit {α : Type} (r : Except Exit α) : Run α := ⟨[], r⟩

/-- The Go index expression `args[i]`: a run-time panic when out of range. -/
def index (args : List String) (i : Nat) : Run String :=
  match args[i]? with
  | some a => Run.pure a
  | none => liftExit (.error (.panic "index out of range"))

/-- The function `checkEventsListSyntax` (lines 55-59) on the positional
arguments; `cli.ShowCommandHelpAndExit(ctx, "list", 1)` shows the help of the
command and exits with the code given. -/
def checkEventsListSyntax (args : List String) : Run Unit :=
  if args.length ≠ 2 ∧ args.length ≠ 1 then do
    emit (.showCommandHelp "list")
    liftExit (.error (.exit 1))
  else
    Run.pure ()

/-- Modelled from the spec: `printMsg` is defined outside `events-list.go`. The
Presenter emits one output unit for the record, in the mode selected by the
global output-mode setting: the JSON record in structured mode, the text line
otherwise. -/
def printMsg (w : World) (msg : eventsListMessage) : Run Unit :=
  if w.globalJSON then
    match msg.JSON w with
    | .ok text => emit (.printMsg msg text)
    | .error x => liftExit (.error x)
  else
    emit (.printMsg msg (msg.String w.colorize))

/-- The record built from one configuration at lines 122-126; `Status` is not
set and keeps the zero value. -/
def messageOf (config : notificationConfig) : eventsListMessage :=
  { Status := "", Events := config.Events, Prefix := config.Prefix,
    Suffix := config.Suffix, Arn := config.Arn, ID := config.ID }

/-- The loop `for _, config := range configs` of `mainEventsList` (lines
121-127). -/
def printConfigs (w : World) : List notificationConfig → Run Unit
  | [] => Run.pure ()
  | config :: rest => do
    printMsg w (messageOf config)
    printConfigs w rest

/-- The text of the output unit of a record in the current mode: the JSON
object in structured mode, the text line otherwise. -/
def outputText (w : World) (msg : eventsListMessage) : String :=
  if w.globalJSON then objectText w.jsonString msg (eventsText w.jsonString msg.Events)
  else msg.String w.colorize

/-- The output unit emitted for one configuration. -/
def unitOf (w : World) (config : notificationConfig) : Event :=
  .printMsg (messageOf config) (outputText w (messageOf config))

/-- The function `mainEventsList` (lines 95-128). `w` is the state of the
surroundings once `console.SetColor` and `setGlobalsFromContext` have run. -/
def mainEventsList (w : World) (args : List String) : Run Unit := do
  emit (.setColor "Events")
  emit .setGlobalsFromContext
  checkEventsListSyntax args
  let path ← index args 0
  let arn ← if args.length > 1 then index args 1 else Run.pure ""
  emit (.newClient path)
  let (client, err) := w.newClient path
  match err with
  | some e => liftExit (fatalIf (some e.Trace) "Cannot parse the provided url.")
  | none => Run.pure ()
  let s3 ← match client with
    | .s3 c => Run.pure c
    | _ => do
      liftExit (fatalIf (some errDummy.Trace) "The provided url doesn't point to a S3 server.")
      -- unreachable: the call above never returns; the zero value of the
      -- failed assertion is a nil `*s3Client`
      liftExit (.error (.panic "nil pointer dereference"))
  emit (.listNotificationConfigs arn)
  let (configs, err) := s3.ListNotificationConfigs arn
  liftExit (fatalIf err "Cannot enable notification on the specified bucket.")
  printConfigs w configs

/-- The exit code of the process after a run: 0 after a normal return, the
code given to exit, 1 on the fatal channel, 2 after a run-time panic. -/
def exitCode (r : Run Unit) : Nat :=
  match r.result with
  | .ok _ => 0
  | .error (.exit code) => code
  | .error (.fatal _ _) => 1
  | .error (.panic _) => 2

/-- The filters of the calls to `ListNotificationConfigs` in a trace, in
order. -/
def listCalls (trace : List Event) : List String :=
  trace.filterMap fun ev =>
    match ev with
    | .listNotificationConfigs arn => some arn
    | _ => none

/-- The output units in a trace, in order: the record given to `printMsg` and
the text written for it. -/
def outputUnits (trace : List Event) : List (eventsListMessage × String) :=
  trace.filterMap fun ev =>
    match ev with
    | .printMsg msg text => some (msg, text)
    | _ => none

/-! A concrete world -/

/-- Three configurations on a bucket. -/
def configA : notificationConfig :=
  ⟨"cfg1", "arn:x", some ["s3:ObjectCreated:*", "s3:ObjectRemoved:*"], "img/", ""⟩

def configB : notificationConfig := ⟨"cfg2", "arn:y", some ["s3:ObjectRemoved:*"], "", ".jpg"⟩

def configC : notificationConfig := ⟨"", "arn:x", none, "", ""⟩

/-- A world with a bucket `play/photos` holding the three configurations, a
bucket `play/locked` whose listing is refused, a location `/tmp/dir` that
resolves to a client of another type; every other location fails to
resolve. Colours are off and no string needs escaping. -/
def demoWorld (json : Bool) : World where
  colorize := fun _ s => s
  globalJSON := json
  jsonString := quotePlain
  newClient := fun path =>
    if path = "play/photos" then
      (.s3 ⟨fun arn => ([configA, configB, configC].filter
          (fun c => arn = "" ∨ c.Arn = arn), none)⟩, none)
    else if path = "play/locked" then
      (.s3 ⟨fun _ => ([configA], some ⟨"Access Denied.", 1⟩)⟩, none)
    else if path = "/tmp/dir" then (.other, none)
    else (.nil, some ⟨"invalid alias", 1⟩)

/-! Lemmas on joining strings -/

theorem intercalate_go_append (s acc x : String) (rest : List String) :
    String.intercalate.go (acc ++ x) s rest = acc ++ String.intercalate.go x s rest := by
  induction rest generalizing x with
  | nil => simp [String.intercalate.go]
  | cons a rest ih =>
    simp only [String.intercalate.go]
    rw [String.append_assoc acc, String.append_assoc acc, ih, String.append_assoc x]

theorem intercalate_cons_cons (s a b : String) (rest : List String) :
    s.intercalate (a :: b :: rest) = a ++ s ++ s.intercalate (b :: rest) := by
  simp only [String.intercalate, String.intercalate.go]
  rw [intercalate_go_append]

theorem intercalate_singleton (s a : String) : s.intercalate [a] = a := by
  simp [String.intercalate, String.intercalate.go]

theorem intercalate_cons_tail (s a : String) (rest : List String) :
    s.intercalate (a :: rest) = a ++ String.intercalate.go "" s rest := by
  simp only [String.intercalate]
  have h := intercalate_go_append s a "" rest
  rw [String.append_empty] at h
  exact h

/-! Lemmas on the text rendering -/

theorem eventsLoop_eq (colorize : String → String → String)
    (hid : ∀ tag s, colorize tag s = s) (n : Nat) (rest : List String) :
    ∀ (i : Nat) (msg : String), i + rest.length = n →
      eventsLoop colorize n i rest msg = msg ++ ",".intercalate rest := by
  induction rest with
  | nil => intro i msg _; simp [eventsLoop, String.intercalate]
  | cons e rest ih =>
    intro i msg hlen
    cases rest with
    | nil =>
      have hi : (i : Int) = (n : Int) - 1 := by
        simp only [List.length_cons, List.length_nil] at hlen; omega
      simp [eventsLoop, hid, hi, intercalate_singleton]
    | cons e1 rest =>
      have hi : (i : Int) ≠ (n : Int) - 1 := by
        simp only [List.length_cons] at hlen; omega
      have hnext : i + 1 + (e1 :: rest).length = n := by
        simp only [List.length_cons] at hlen ⊢; omega
      rw [eventsLoop]
      simp only [hid, hi, ne_eq, not_false_eq_true, if_true]
      rw [ih (i + 1) _ hnext, intercalate_cons_cons]
      simp [String.append_assoc]

theorem String_eq (colorize : String → String → String)
    (hid : ∀ tag s, colorize tag s = s) (u : eventsListMessage) :
    u.String colorize = specLine u := by
  have hloop := eventsLoop_eq colorize hid (sliceElems u.Events).length
    (sliceElems u.Events) 0 (u.ID ++ "\t" ++ u.Arn ++ "\t") (by simp)
  simp only [eventsListMessage.String, specLine, hid, hloop]
  by_cases hp : u.Prefix = "" <;> by_cases hs : u.Suffix = "" <;>
    simp [hp, hs, String.append_assoc]

/-! Lemmas on the structured rendering -/

theorem jsonEncodeElems_strings (quote : String → String) (xs : List String) :
    jsonEncodeElems quote false (xs.map GoValue.string)
      = .ok (String.intercalate.go "" "," (xs.map quote)) := by
  induction xs with
  | nil => simp [jsonEncodeElems, String.intercalate.go]
  | cons x xs ih =>
    simp only [List.map_cons, jsonEncodeElems, jsonEncode, ih, String.intercalate.go]
    have h := intercalate_go_append "," ("" ++ "," ++ quote x) "" (xs.map quote)
    rw [String.append_empty] at h
    rw [h]
    simp [String.append_assoc]

theorem jsonEncode_stringSlice (quote : String → String) (events : Option (List String)) :
    jsonEncode quote (stringSliceValue events) = .ok (eventsText quote events) := by
  cases events with
  | none => simp [stringSliceValue, jsonEncode, eventsText]
  | some xs =>
    cases xs with
    | nil => simp [stringSliceValue, jsonEncode, jsonEncodeElems, eventsText, String.intercalate]
    | cons x xs =>
      simp only [stringSliceValue, List.map_cons, jsonEncode, jsonEncodeElems,
        jsonEncodeElems_strings, eventsText, intercalate_cons_tail]
      simp [String.append_assoc]

theorem jsonMarshal_message (quote : String → String) (u : eventsListMessage) :
    jsonMarshal quote { u with Status := "success" }.toGoValue
      = .ok (objectText quote u (eventsText quote u.Events)) := by
  simp only [jsonMarshal, eventsListMessage.toGoValue, jsonEncode, jsonEncodeFields,
    jsonEncode_stringSlice, objectText]
  simp only [String.append_assoc, ite_true, Bool.false_eq_true, ite_false, String.empty_append]
  rfl

theorem JSON_eq (w : World) (u : eventsListMessage) :
    u.JSON w = .ok (objectText w.jsonString u (eventsText w.jsonString u.Events)) := by
  simp only [eventsListMessage.JSON, jsonMarshal_message, probe.NewError, fatalIf]

/-! Lemmas on the command -/

theorem printMsg_eq (w : World) (msg : eventsListMessage) :
    printMsg w msg = ⟨[.printMsg msg (outputText w msg)], .ok ()⟩ := by
  unfold printMsg outputText
  cases hj : w.globalJSON <;> simp [JSON_eq, emit]

theorem printConfigs_eq (w : World) (configs : List notificationConfig) :
    printConfigs w configs = ⟨configs.map (unitOf w), .ok ()⟩ := by
  induction configs with
  | nil => rfl
  | cons config rest ih =>
    simp [printConfigs, printMsg_eq, ih, bind, Run.bind, unitOf]

theorem checkEventsListSyntax_ok (args : List String)
    (h : args.length = 1 ∨ args.length = 2) : checkEventsListSyntax args = ⟨[], .ok ()⟩ := by
  unfold checkEventsListSyntax
  rw [if_neg (by omega)]
  rfl

theorem checkEventsListSyntax_bad (args : List String)
    (h : ¬ (args.length = 1 ∨ args.length = 2)) :
    checkEventsListSyntax args = ⟨[.showCommandHelp "list"], .error (.exit 1)⟩ := by
  unfold checkEventsListSyntax
  rw [if_pos (by omega)]
  rfl

theorem mainEventsList_bad (w : World) (args : List String)
    (h : ¬ (args.length = 1 ∨ args.length = 2)) :
    mainEventsList w args
      = ⟨[.setColor "Events", .setGlobalsFromContext, .showCommandHelp "list"],
          .error (.exit 1)⟩ := by
  simp [mainEventsList, checkEventsListSyntax_bad args h, bind, Run.bind, emit]

/-- The positional arguments of a valid list: the path and the filter. -/
theorem valid_args (args : List String) (h : args.length = 1 ∨ args.length = 2) :
    ∃ path, (args = [path] ∨ ∃ arn, args = [path, arn]) := by
  match args, h with
  | [p], _ => exact ⟨p, Or.inl rfl⟩
  | [p, a], _ => exact ⟨p, Or.inr ⟨a, rfl⟩⟩
  | [], h => simp at h
  | _ :: _ :: _ :: _, h => simp at h

theorem mainEventsList_resolve_error (w : World) (args : List String)
    (h : args.length = 1 ∨ args.length = 2) (client : Client) (e : ProbeError)
    (hc : w.newClient (args.getD 0 "") = (client, some e)) :
    mainEventsList w args
      = ⟨[.setColor "Events", .setGlobalsFromContext, .newClient (args.getD 0 "")],
          .error (.fatal e.Trace "Cannot parse the provided url.")⟩ := by
  obtain ⟨p, rfl | ⟨a, rfl⟩⟩ := valid_args args h <;>
    simp_all [mainEventsList, checkEventsListSyntax_ok, bind, Run.bind, emit, index,
      Run.pure, liftExit, fatalIf]

theorem mainEventsList_not_s3 (w : World) (args : List String)
    (h : args.length = 1 ∨ args.length = 2) (client : Client)
    (hc : w.newClient (args.getD 0 "") = (client, none)) (hs : ∀ c, client ≠ .s3 c) :
    mainEventsList w args
      = ⟨[.setColor "Events", .setGlobalsFromContext, .newClient (args.getD 0 "")],
          .error (.fatal errDummy.Trace "The provided url doesn't point to a S3 server.")⟩ := by
  cases client with
  | s3 c => exact absurd rfl (hs c)
  | nil =>
    obtain ⟨p, rfl | ⟨a, rfl⟩⟩ := valid_args args h <;>
      simp_all [mainEventsList, checkEventsListSyntax_ok, bind, Run.bind, emit, index,
        Run.pure, liftExit, fatalIf]
  | other =>
    obtain ⟨p, rfl | ⟨a, rfl⟩⟩ := valid_args args h <;>
      simp_all [mainEventsList, checkEventsListSyntax_ok, bind, Run.bind, emit, index,
        Run.pure, liftExit, fatalIf]

theorem mainEventsList_list_error (w : World) (args : List String)
    (h : args.length = 1 ∨ args.length = 2) (c : s3Client)
    (hc : w.newClient (args.getD 0 "") = (.s3 c, none))
    (configs : List notificationConfig) (e : ProbeError)
    (hl : c.ListNotificationConfigs (args.getD 1 "") = (configs, some e)) :
    mainEventsList w args
      = ⟨[.setColor "Events", .setGlobalsFromContext, .newClient (args.getD 0 ""),
           .listNotificationConfigs (args.getD 1 "")],
          .error (.fatal e "Cannot enable notification on the specified bucket.")⟩ := by
  obtain ⟨p, rfl | ⟨a, rfl⟩⟩ := valid_args args h <;>
    simp_all [mainEventsList, checkEventsListSyntax_ok, bind, Run.bind, emit, index,
      Run.pure, liftExit, fatalIf]

theorem mainEventsList_listed (w : World) (args : List String)
    (h : args.length = 1 ∨ args.length = 2) (c : s3Client)
    (hc : w.newClient (args.getD 0 "") = (.s3 c, none))
    (configs : List notificationConfig)
    (hl : c.ListNotificationConfigs (args.getD 1 "") = (configs, none)) :
    mainEventsList w args
      = ⟨[.setColor "Events", .setGlobalsFromContext, .newClient (args.getD 0 ""),
           .listNotificationConfigs (args.getD 1 "")] ++ configs.map (unitOf w),
          .ok ()⟩ := by
  obtain ⟨p, rfl | ⟨a, rfl⟩⟩ := valid_args args h <;>
    simp_all [mainEventsList, checkEventsListSyntax_ok, bind, Run.bind, emit, index,
      Run.pure, liftExit, fatalIf, printConfigs_eq]

/-- Every run on a valid argument list has one of four shapes. -/
theorem mainEventsList_cases (w : World) (args : List String)
    (h : args.length = 1 ∨ args.length = 2) :
    (∃ e, mainEventsList w args
        = ⟨[.setColor "Events", .setGlobalsFromContext, .newClient (args.getD 0 "")],
            .error (.fatal e "Cannot parse the provided url.")⟩)
    ∨ (mainEventsList w args
        = ⟨[.setColor "Events", .setGlobalsFromContext, .newClient (args.getD 0 "")],
            .error (.fatal errDummy.Trace "The provided url doesn't point to a S3 server.")⟩)
    ∨ (∃ e, mainEventsList w args
        = ⟨[.setColor "Events", .setGlobalsFromContext, .newClient (args.getD 0 ""),
             .listNotificationConfigs (args.getD 1 "")],
            .error (.fatal e "Cannot enable notification on the specified bucket.")⟩)
    ∨ (∃ configs : List notificationConfig, mainEventsList w args
        = ⟨[.setColor "Events", .setGlobalsFromContext, .newClient (args.getD 0 ""),
             .listNotificationConfigs (args.getD 1 "")] ++ configs.map (unitOf w),
            .ok ()⟩) := by
  rcases hc : w.newClient (args.getD 0 "") with ⟨client, err⟩
  cases err with
  | some e => exact Or.inl ⟨_, mainEventsList_resolve_error w args h client e hc⟩
  | none =>
    cases client with
    | nil => exact Or.inr (Or.inl (mainEventsList_not_s3 w args h _ hc (by simp)))
    | other => exact Or.inr (Or.inl (mainEventsList_not_s3 w args h _ hc (by simp)))
    | s3 c =>
      rcases hl : c.ListNotificationConfigs (args.getD 1 "") with ⟨configs, err⟩
      cases err with
      | some e =>
        exact Or.inr (Or.inr (Or.inl ⟨e, mainEventsList_list_error w args h c hc configs e hl⟩))
      | none =>
        exact Or.inr (Or.inr (Or.inr ⟨configs, mainEventsList_listed w args h c hc configs hl⟩))

/-! The claims -/

/-- C1: with colour styling the identity, `eventsListMessage.String()` returns
exactly the id, a tab, the arn, a tab, the events joined by commas in the
record's order (no comma after the last), then the tag `prefix:` with the
prefix after a tab when the prefix is non-empty, then the tag `suffix:` with
the suffix after a tab when the suffix is non-empty. -/
theorem C1_String_line (colorize : String → String → String)
    (hid : ∀ tag s, colorize tag s = s) (u : eventsListMessage) :
    u.String colorize
      = u.ID ++ "\t" ++ u.Arn ++ "\t" ++ ",".intercalate (sliceElems u.Events)
          ++ (if u.Prefix ≠ "" then "\tprefix:" ++ u.Prefix else "")
          ++ (if u.Suffix ≠ "" then "\tsuffix:" ++ u.Suffix else "") :=
  String_eq colorize hid u

/-- C1, witness: the record cfg1 / arn:x with two events, prefix `img/` and no
suffix renders as the line of the specification, without a suffix tag. -/
theorem C1_String_line_witness :
    (∀ tag s : String, (fun (_ : String) (t : String) => t) tag s = s)
    ∧ eventsListMessage.String (fun _ t => t)
        ⟨"", "cfg1", some ["s3:ObjectCreated:*", "s3:ObjectRemoved:*"], "img/", "", "arn:x"⟩
      = "cfg1\tarn:x\ts3:ObjectCreated:*,s3:ObjectRemoved:*\tprefix:img/" :=
  ⟨fun _ _ => rfl,
   (C1_String_line (fun _ t => t) (fun _ _ => rfl)
      ⟨"", "cfg1", some ["s3:ObjectCreated:*", "s3:ObjectRemoved:*"], "img/", "", "arn:x"⟩).trans
     (by decide)⟩

/-- C2, counterexample: for a record whose `Events` slice is nil, `JSON()`
writes `"events":null`, which is not the JSON list of the record's events
(the empty list `[]`) that the claim announces. -/
theorem C2_nil_events_is_null :
    eventsListMessage.JSON (demoWorld true) ⟨"", "", none, "", "", "arn:x"⟩
      = .ok "\x7b\"status\":\"success\",\"id\":\"\",\"events\":null,\"prefix\":\"\",\"suffix\":\"\",\"arn\":\"arn:x\"\x7d"
    ∧ eventsListMessage.JSON (demoWorld true) ⟨"", "", none, "", "", "arn:x"⟩
      ≠ .ok (objectText quotePlain ⟨"", "", none, "", "", "arn:x"⟩
              (specEventsList quotePlain none)) := by
  constructor
  · rw [JSON_eq]; exact congrArg Except.ok (by decide)
  · rw [JSON_eq]
    intro h
    exact absurd (Except.ok.inj h) (by decide)

/-- C2, amended: `JSON()` returns one JSON object whose keys are status, id,
events, prefix, suffix, arn in that order; status is the literal `success`
whatever the record carried; events is `null` when the `Events` slice is nil
and otherwise the JSON list of the events in the record's order; prefix and
suffix are always written (an empty suffix as `"suffix":""`); the result does
not depend on the colouring state. -/
theorem C2_JSON_object (w : World) (u : eventsListMessage) :
    u.JSON w
      = .ok ("\x7b\"status\":" ++ w.jsonString "success" ++ ",\"id\":" ++ w.jsonString u.ID
          ++ ",\"events\":"
          ++ (match u.Events with
              | none => "null"
              | some xs => "[" ++ ",".intercalate (xs.map w.jsonString) ++ "]")
          ++ ",\"prefix\":" ++ w.jsonString u.Prefix
          ++ ",\"suffix\":" ++ w.jsonString u.Suffix
          ++ ",\"arn\":" ++ w.jsonString u.Arn ++ "\x7d")
    ∧ (∀ status, eventsListMessage.JSON w { u with Status := status } = u.JSON w)
    ∧ (∀ colorize, u.JSON { w with colorize := colorize } = u.JSON w)
    ∧ eventsListMessage.JSON (demoWorld true)
        ⟨"failure", "cfg1", some ["s3:ObjectCreated:*", "s3:ObjectRemoved:*"], "img/", "",
          "arn:x"⟩
      = .ok "\x7b\"status\":\"success\",\"id\":\"cfg1\",\"events\":[\"s3:ObjectCreated:*\",\"s3:ObjectRemoved:*\"],\"prefix\":\"img/\",\"suffix\":\"\",\"arn\":\"arn:x\"\x7d" := by
  refine ⟨?_, ?_, ?_, ?_⟩
  · rw [JSON_eq]
    cases hE : u.Events <;> simp [objectText, eventsText]
  · intro status
    rw [JSON_eq, JSON_eq]
    rfl
  · intro colorize
    rw [JSON_eq, JSON_eq]
  · rw [JSON_eq]; exact congrArg Except.ok (by decide)

/-- C3: `checkEventsListSyntax` accepts exactly the argument lists with 1 or 2
elements; for every other count it shows the help of the command and exits
with code 1, and `mainEventsList` stops there, never calling `newClient`. -/
theorem C3_syntax_check (w : World) (args : List String) :
    ((checkEventsListSyntax args).result = .ok () ↔ (args.length = 1 ∨ args.length = 2))
    ∧ (¬ (args.length = 1 ∨ args.length = 2) →
        checkEventsListSyntax args = ⟨[.showCommandHelp "list"], .error (.exit 1)⟩
        ∧ (mainEventsList w args).result = .error (.exit 1)
        ∧ exitCode (mainEventsList w args) = 1
        ∧ Event.showCommandHelp "list" ∈ (mainEventsList w args).trace
        ∧ ∀ path, Event.newClient path ∉ (mainEventsList w args).trace) := by
  constructor
  · by_cases h : args.length = 1 ∨ args.length = 2
    · simp [checkEventsListSyntax_ok args h, h]
    · simp [checkEventsListSyntax_bad args h, h]
  · intro h
    rw [mainEventsList_bad w args h]
    exact ⟨checkEventsListSyntax_bad args h, rfl, rfl, by simp, by simp⟩

/-- C3, witness: three arguments are rejected with exit code 1 and the
resolver is not called. -/
theorem C3_syntax_check_witness :
    ¬ ((["play/photos", "arn:x", "extra"] : List String).length = 1
        ∨ (["play/photos", "arn:x", "extra"] : List String).length = 2)
    ∧ (mainEventsList (demoWorld false) ["play/photos", "arn:x", "extra"]).result
        = .error (.exit 1)
    ∧ ∀ path, Event.newClient path
        ∉ (mainEventsList (demoWorld false) ["play/photos", "arn:x", "extra"]).trace :=
  ⟨by decide,
   ((C3_syntax_check (demoWorld false) ["play/photos", "arn:x", "extra"]).2 (by decide)).2.1,
   ((C3_syntax_check (demoWorld false) ["play/photos", "arn:x", "extra"]).2
      (by decide)).2.2.2.2⟩

/-- C4: on a valid argument list, the filter `mainEventsList` passes to the
client's `ListNotificationConfigs` is the empty string when one argument is
given and the second argument, unchanged, when two are given: once the target
resolves to an S3 client `c`, the rest of the run is decided by what `c`
answers at that filter (`c.ListNotificationConfigs ""`, respectively
`c.ListNotificationConfigs arn`): its error stops the run, its configurations
are the ones printed; and the one call recorded in the trace carries that
filter. -/
theorem C4_filter_passed (w : World) (path arn : String) :
    (∀ f ∈ listCalls (mainEventsList w [path]).trace, f = "")
    ∧ (∀ f ∈ listCalls (mainEventsList w [path, arn]).trace, f = arn)
    ∧ (∀ c, w.newClient path = (.s3 c, none) →
        mainEventsList w [path]
          = ⟨[.setColor "Events", .setGlobalsFromContext, .newClient path,
               .listNotificationConfigs ""]
              ++ (match (c.ListNotificationConfigs "").2 with
                  | none => (c.ListNotificationConfigs "").1.map (unitOf w)
                  | some _ => []),
             match (c.ListNotificationConfigs "").2 with
             | none => .ok ()
             | some e =>
               .error (.fatal e "Cannot enable notification on the specified bucket.")⟩
        ∧ mainEventsList w [path, arn]
          = ⟨[.setColor "Events", .setGlobalsFromContext, .newClient path,
               .listNotificationConfigs arn]
              ++ (match (c.ListNotificationConfigs arn).2 with
                  | none => (c.ListNotificationConfigs arn).1.map (unitOf w)
                  | some _ => []),
             match (c.ListNotificationConfigs arn).2 with
             | none => .ok ()
             | some e =>
               .error (.fatal e "Cannot enable notification on the specified bucket.")⟩
        ∧ listCalls (mainEventsList w [path]).trace = [""]
        ∧ listCalls (mainEventsList w [path, arn]).trace = [arn]) := by
  have h1 : ([path] : List String).length = 1 ∨ ([path] : List String).length = 2 := by simp
  have h2 : ([path, arn] : List String).length = 1 ∨ ([path, arn] : List String).length = 2 := by
    simp
  refine ⟨?_, ?_, ?_⟩
  · rcases mainEventsList_cases w [path] h1 with ⟨e, h⟩ | h | ⟨e, h⟩ | ⟨configs, h⟩ <;>
      rw [h] <;> simp [listCalls, unitOf]
  · rcases mainEventsList_cases w [path, arn] h2 with ⟨e, h⟩ | h | ⟨e, h⟩ | ⟨configs, h⟩ <;>
      rw [h] <;> simp [listCalls, unitOf]
  · intro c hc
    have hrun1 : mainEventsList w [path]
        = ⟨[.setColor "Events", .setGlobalsFromContext, .newClient path,
             .listNotificationConfigs ""]
            ++ (match (c.ListNotificationConfigs "").2 with
                | none => (c.ListNotificationConfigs "").1.map (unitOf w)
                | some _ => []),
           match (c.ListNotificationConfigs "").2 with
           | none => .ok ()
           | some e =>
             .error (.fatal e "Cannot enable notification on the specified bucket.")⟩ := by
      rcases hl : c.ListNotificationConfigs "" with ⟨configs, err⟩
      cases err with
      | some e =>
        rw [mainEventsList_list_error w [path] h1 c hc configs e hl]
        simp
      | none =>
        rw [mainEventsList_listed w [path] h1 c hc configs hl]
        simp
    have hrun2 : mainEventsList w [path, arn]
        = ⟨[.setColor "Events", .setGlobalsFromContext, .newClient path,
             .listNotificationConfigs arn]
            ++ (match (c.ListNotificationConfigs arn).2 with
                | none => (c.ListNotificationConfigs arn).1.map (unitOf w)
                | some _ => []),
           match (c.ListNotificationConfigs arn).2 with
           | none => .ok ()
           | some e =>
             .error (.fatal e "Cannot enable notification on the specified bucket.")⟩ := by
      rcases hl : c.ListNotificationConfigs arn with ⟨configs, err⟩
      cases err with
      | some e =>
        rw [mainEventsList_list_error w [path, arn] h2 c hc configs e hl]
        simp
      | none =>
        rw [mainEventsList_listed w [path, arn] h2 c hc configs hl]
        simp
    refine ⟨hrun1, hrun2, ?_, ?_⟩
    · rw [hrun1]
      cases (c.ListNotificationConfigs "").2 <;> simp [listCalls, unitOf]
    · rw [hrun2]
      cases (c.ListNotificationConfigs arn).2 <;> simp [listCalls, unitOf]

/-- C4, witness: on the bucket `play/photos`, whose client answers the filter
`arn:y` with the one configuration bound to that target and the empty filter
with all three, the run with the arguments `play/photos arn:y` prints that
one configuration and the run with the single argument `play/photos` prints
all three. -/
theorem C4_filter_passed_witness :
    (demoWorld false).newClient "play/photos"
      = (.s3 ⟨fun arn => ([configA, configB, configC].filter
          (fun c => arn = "" ∨ c.Arn = arn), none)⟩, none)
    ∧ mainEventsList (demoWorld false) ["play/photos", "arn:y"]
        = ⟨[.setColor "Events", .setGlobalsFromContext, .newClient "play/photos",
             .listNotificationConfigs "arn:y", unitOf (demoWorld false) configB], .ok ()⟩
    ∧ mainEventsList (demoWorld false) ["play/photos"]
        = ⟨[.setColor "Events", .setGlobalsFromContext, .newClient "play/photos",
             .listNotificationConfigs "", unitOf (demoWorld false) configA,
             unitOf (demoWorld false) configB, unitOf (demoWorld false) configC], .ok ()⟩
    ∧ listCalls (mainEventsList (demoWorld false) ["play/photos", "arn:y"]).trace
        = ["arn:y"] :=
  ⟨rfl,
   ((C4_filter_passed (demoWorld false) "play/photos" "arn:y").2.2 _ rfl).2.1.trans rfl,
   ((C4_filter_passed (demoWorld false) "play/photos" "arn:y").2.2 _ rfl).1.trans rfl,
   ((C4_filter_passed (demoWorld false) "play/photos" "arn:y").2.2 _ rfl).2.2.2⟩

/-- C5: when the target resolves to an S3 client and the listing succeeds with
the configurations `configs`, `mainEventsList` emits exactly one output unit
per configuration, in the client's order, the i-th unit built from the i-th
configuration's id, arn, events, prefix and suffix unchanged and written in
the current mode; the run returns normally (exit code 0), also for the empty
sequence, which yields no output unit. -/
theorem C5_one_unit_per_config (w : World) (args : List String)
    (h : args.length = 1 ∨ args.length = 2) (c : s3Client)
    (hc : w.newClient (args.getD 0 "") = (.s3 c, none))
    (configs : List notificationConfig)
    (hl : c.ListNotificationConfigs (args.getD 1 "") = (configs, none)) :
    (outputUnits (mainEventsList w args).trace).map Prod.fst
        = configs.map (fun config =>
            ({ Status := "", ID := config.ID, Events := config.Events,
               Prefix := config.Prefix, Suffix := config.Suffix, Arn := config.Arn }
              : eventsListMessage))
    ∧ (outputUnits (mainEventsList w args).trace).map Prod.snd
        = configs.map (fun config => outputText w (messageOf config))
    ∧ (mainEventsList w args).result = .ok ()
    ∧ exitCode (mainEventsList w args) = 0
    ∧ (configs = [] → outputUnits (mainEventsList w args).trace = []) := by
  have hunits : ∀ cs : List notificationConfig, outputUnits (cs.map (unitOf w))
      = cs.map (fun config => (messageOf config, outputText w (messageOf config))) := by
    intro cs
    induction cs with
    | nil => rfl
    | cons config rest ih =>
      simp only [outputUnits, List.map_cons, List.filterMap_cons, unitOf] at ih ⊢
      rw [ih]
  have hpre : ∀ rest : List Event,
      outputUnits ([.setColor "Events", .setGlobalsFromContext, .newClient (args.getD 0 ""),
        .listNotificationConfigs (args.getD 1 "")] ++ rest) = outputUnits rest := by
    intro rest
    simp [outputUnits]
  rw [mainEventsList_listed w args h c hc configs hl]
  refine ⟨?_, ?_, rfl, rfl, ?_⟩
  · rw [hpre, hunits, List.map_map]
    exact List.map_congr_left (fun _ _ => rfl)
  · rw [hpre, hunits, List.map_map]
    exact List.map_congr_left (fun _ _ => rfl)
  · intro h0
    rw [hpre, hunits, h0]
    rfl

/-- C5, witness: the responses A, B, C give the output units A, B, C. -/
theorem C5_one_unit_per_config_witness :
    ((["play/photos"] : List String).length = 1 ∨ (["play/photos"] : List String).length = 2)
    ∧ (outputUnits (mainEventsList (demoWorld false) ["play/photos"]).trace).map Prod.fst
        = [messageOf configA, messageOf configB, messageOf configC]
    ∧ (mainEventsList (demoWorld false) ["play/photos"]).result = .ok () :=
  ⟨by decide,
   (C5_one_unit_per_config (demoWorld false) ["play/photos"] (by decide)
      ⟨fun arn => ([configA, configB, configC].filter (fun c => arn = "" ∨ c.Arn = arn), none)⟩
      rfl [configA, configB, configC] rfl).1,
   (C5_one_unit_per_config (demoWorld false) ["play/photos"] (by decide)
      ⟨fun arn => ([configA, configB, configC].filter (fun c => arn = "" ∨ c.Arn = arn), none)⟩
      rfl [configA, configB, configC] rfl).2.2.1⟩

/-- C6: on a valid argument list, when the client's `ListNotificationConfigs`
returns an error, `mainEventsList` emits no output unit and stops on the fatal
channel with a non-zero exit code, whatever configurations came with the
error. -/
theorem C6_list_failure_is_fatal (w : World) (args : List String)
    (h : args.length = 1 ∨ args.length = 2) (c : s3Client)
    (hc : w.newClient (args.getD 0 "") = (.s3 c, none))
    (configs : List notificationConfig) (e : ProbeError)
    (hl : c.ListNotificationConfigs (args.getD 1 "") = (configs, some e)) :
    outputUnits (mainEventsList w args).trace = []
    ∧ (∃ msg, (mainEventsList w args).result = .error (.fatal e msg))
    ∧ exitCode (mainEventsList w args) ≠ 0 := by
  rw [mainEventsList_list_error w args h c hc configs e hl]
  exact ⟨by simp [outputUnits], ⟨_, rfl⟩, by simp [exitCode]⟩

/-- C6, witness: listing the bucket `play/locked` is refused; nothing is
printed although the client handed back a configuration with the error. -/
theorem C6_list_failure_is_fatal_witness :
    (demoWorld true).newClient "play/locked"
      = (.s3 ⟨fun _ => ([configA], some ⟨"Access Denied.", 1⟩)⟩, none)
    ∧ outputUnits (mainEventsList (demoWorld true) ["play/locked", "arn:x"]).trace = []
    ∧ exitCode (mainEventsList (demoWorld true) ["play/locked", "arn:x"]) ≠ 0 :=
  ⟨rfl,
   (C6_list_failure_is_fatal (demoWorld true) ["play/locked", "arn:x"] (by decide)
      ⟨fun _ => ([configA], some ⟨"Access Denied.", 1⟩)⟩ rfl [configA]
      ⟨"Access Denied.", 1⟩ rfl).1,
   (C6_list_failure_is_fatal (demoWorld true) ["play/locked", "arn:x"] (by decide)
      ⟨fun _ => ([configA], some ⟨"Access Denied.", 1⟩)⟩ rfl [configA]
      ⟨"Access Denied.", 1⟩ rfl).2.2⟩

/-- C7: when the listing fails, the fatal error of `mainEventsList` carries the
client's error unchanged, but its message context is the text of line 119,
"Cannot enable notification on the specified bucket.", not a message about
listing notification configurations. -/
theorem C7_list_failure_message :
    (mainEventsList (demoWorld false) ["play/locked"]).result
      = .error (.fatal ⟨"Access Denied.", 1⟩
          "Cannot enable notification on the specified bucket.") :=
  congrArg Run.result
    (mainEventsList_list_error (demoWorld false) ["play/locked"] (by decide)
      ⟨fun _ => ([configA], some ⟨"Access Denied.", 1⟩)⟩ rfl [configA]
      ⟨"Access Denied.", 1⟩ rfl)

/-- C8: on a valid argument list, when resolution fails or the resolved client
is not an S3 client, `mainEventsList` stops on the fatal channel with a
non-zero exit code, without calling `ListNotificationConfigs` and without
emitting any output unit. -/
theorem C8_unsupported_target_is_fatal (w : World) (args : List String)
    (h : args.length = 1 ∨ args.length = 2) (client : Client) (err : Option ProbeError)
    (hc : w.newClient (args.getD 0 "") = (client, err))
    (hbad : err ≠ none ∨ ∀ c, client ≠ .s3 c) :
    (∃ e msg, (mainEventsList w args).result = .error (.fatal e msg))
    ∧ exitCode (mainEventsList w args) ≠ 0
    ∧ listCalls (mainEventsList w args).trace = []
    ∧ outputUnits (mainEventsList w args).trace = []
    ∧ (∀ e, err = some e → (mainEventsList w args).result
        = .error (.fatal e.Trace "Cannot parse the provided url."))
    ∧ (err = none → (mainEventsList w args).result
        = .error (.fatal errDummy.Trace "The provided url doesn't point to a S3 server.")) := by
  cases err with
  | some e =>
    rw [mainEventsList_resolve_error w args h client e hc]
    exact ⟨⟨_, _, rfl⟩, by simp [exitCode], by simp [listCalls], by simp [outputUnits],
      fun e1 he => (by cases he; rfl), fun he => (by cases he)⟩
  | none =>
    have hs : ∀ c, client ≠ .s3 c := by
      rcases hbad with hbad | hbad
      · exact absurd rfl hbad
      · exact hbad
    rw [mainEventsList_not_s3 w args h client hc hs]
    exact ⟨⟨_, _, rfl⟩, by simp [exitCode], by simp [listCalls], by simp [outputUnits],
      fun e1 he => (by cases he), fun _ => rfl⟩

/-- C8, witness: the location `/tmp/dir` resolves to a client of another type;
the run is fatal and the client is never asked for configurations. -/
theorem C8_unsupported_target_is_fatal_witness :
    (demoWorld false).newClient "/tmp/dir" = (.other, none)
    ∧ listCalls (mainEventsList (demoWorld false) ["/tmp/dir", "arn:x"]).trace = []
    ∧ outputUnits (mainEventsList (demoWorld false) ["/tmp/dir", "arn:x"]).trace = []
    ∧ exitCode (mainEventsList (demoWorld false) ["/tmp/dir", "arn:x"]) ≠ 0 :=
  ⟨rfl,
   (C8_unsupported_target_is_fatal (demoWorld false) ["/tmp/dir", "arn:x"] (by decide)
      .other none rfl (Or.inr (fun _ hx => by cases hx))).2.2.1,
   (C8_unsupported_target_is_fatal (demoWorld false) ["/tmp/dir", "arn:x"] (by decide)
      .other none rfl (Or.inr (fun _ hx => by cases hx))).2.2.2.1,
   (C8_unsupported_target_is_fatal (demoWorld false) ["/tmp/dir", "arn:x"] (by decide)
      .other none rfl (Or.inr (fun _ hx => by cases hx))).2.1⟩

/-- C9: for every record, with any strings and any events slice (nil and empty
included), the encoder returns no error on the record and `JSON()` returns
its text: the fatal branch of `JSON()` is not taken. -/
theorem C9_JSON_succeeds (w : World) (u : eventsListMessage) :
    (∃ bytes, jsonMarshal w.jsonString { u with Status := "success" }.toGoValue = .ok bytes)
    ∧ (∃ text, u.JSON w = .ok text)
    ∧ (∀ x, u.JSON w ≠ .error x) := by
  refine ⟨⟨_, jsonMarshal_message w.jsonString u⟩, ⟨_, JSON_eq w u⟩, ?_⟩
  intro x hx
  rw [JSON_eq] at hx
  cases hx

/-- C10: on an argument list that passes `checkEventsListSyntax`, the index
expressions of `mainEventsList` are in bounds: `args[0]` exists, `args[1]`
exists whenever the list has more than one element, which is the only case
where it is read, and no run ends in a run-time panic. -/
theorem C10_indexing_in_bounds (w : World) (args : List String)
    (h : (checkEventsListSyntax args).result = .ok ()) :
    (∃ path, index args 0 = ⟨[], .ok path⟩)
    ∧ (args.length > 1 → ∃ arn, index args 1 = ⟨[], .ok arn⟩)
    ∧ (∀ reason, (mainEventsList w args).result ≠ .error (.panic reason)) := by
  have hv : args.length = 1 ∨ args.length = 2 := by
    by_cases hv : args.length = 1 ∨ args.length = 2
    · exact hv
    · rw [checkEventsListSyntax_bad args hv] at h
      cases h
  refine ⟨?_, ?_, ?_⟩
  · obtain ⟨p, rfl | ⟨a, rfl⟩⟩ := valid_args args hv <;> exact ⟨p, rfl⟩
  · intro hlen
    obtain ⟨p, rfl | ⟨a, rfl⟩⟩ := valid_args args hv
    · simp at hlen
    · exact ⟨a, rfl⟩
  · intro reason
    rcases mainEventsList_cases w args hv with ⟨e, h⟩ | h | ⟨e, h⟩ | ⟨configs, h⟩ <;>
      rw [h] <;> simp

/-- C10, witness: a single argument passes the check and is read at index 0.
-/
theorem C10_indexing_in_bounds_witness :
    (checkEventsListSyntax ["play/photos"]).result = .ok ()
    ∧ ∃ path, index ["play/photos"] 0 = ⟨[], .ok path⟩ :=
  ⟨rfl, (C10_indexing_in_bounds (demoWorld false) ["play/photos"] rfl).1⟩

end Mc
